import Mathlib

/-!
Shallow embedding of the character/inventory service (src/main.py, src/models.py):
pydantic field validation for characters and magic items, and the state-passing
semantics of the route handlers (create, rename, delete, attach, detach).
-/

/-- `TipoItem` enum from src/models.py. -/
inductive TipoItem where
  | ARMA
  | ARMADURA
  | AMULETO
deriving DecidableEq, Repr

/-- `ClassePersonagem` enum from src/models.py. -/
inductive ClassePersonagem where
  | GUERREIRO
  | MAGO
  | ARQUEIRO
  | LADINO
  | BARDO
deriving DecidableEq, Repr

/-- Errors raised by the pydantic validators of `ItemMagicoBase` (src/main.py):
the `conint(ge=0, le=10)` range constraints on each attribute, the two
type-consistency validators, and the at-least-one-attribute validator. -/
inductive ItemError where
  | outOfRangeForca
  | outOfRangeDefesa
  | armaduraComForca
  | armaComDefesa
  | semAtributo
deriving DecidableEq, Repr

/-- The two type-consistency errors of `ItemMagicoBase` (TypeMismatch kind). -/
def ItemError.isTypeMismatch : ItemError → Bool
  | .armaduraComForca => true
  | .armaComDefesa => true
  | _ => false

/-- Field validation of `ItemMagicoBase` (src/main.py lines 30-52).
Pydantic v1 validates fields in declaration order (nome, tipo, forca, defesa);
a field that fails its `conint` constraint or a validator is absent from
`values` for later validators, and within one field the validators run in
declaration order, stopping at the first failure.  Errors are collected per
field.  `nome : str` and `tipo : TipoItem` carry no constraint of their own. -/
def validarItem (_nome : String) (tipo : TipoItem) (forca defesa : Int) :
    List ItemError :=
  let forcaRes : List ItemError × Bool :=
    if ¬(0 ≤ forca ∧ forca ≤ 10) then ([ItemError.outOfRangeForca], false)
    else if tipo = TipoItem.ARMADURA ∧ forca ≠ 0 then
      ([ItemError.armaduraComForca], false)
    else ([], true)
  let defesaRes : List ItemError :=
    if ¬(0 ≤ defesa ∧ defesa ≤ 10) then [ItemError.outOfRangeDefesa]
    else if tipo = TipoItem.ARMA ∧ defesa ≠ 0 then [ItemError.armaComDefesa]
    else if forcaRes.2 ∧ forca = 0 ∧ defesa = 0 then [ItemError.semAtributo]
    else []
  forcaRes.1 ++ defesaRes

/-- Errors raised by the pydantic validators of `PersonagemBase` (src/main.py):
`conint` range constraints on level and base attributes, and the point-budget
validator on `defesa_base`. -/
inductive PersonagemError where
  | outOfRangeLevel
  | outOfRangeForcaBase
  | outOfRangeDefesaBase
  | budgetExceeded
deriving DecidableEq, Repr

/-- Field validation of `PersonagemBase` (src/main.py lines 69-81).
Fields in order: nome, nome_aventureiro, classe, level, forca_base,
defesa_base; the budget validator on defesa_base only fires when forca_base
passed its own constraint (is present in `values`).  The two name fields are
plain `str` with no constraint. -/
def validarPersonagem (_nome _nomeAventureiro : String)
    (_classe : ClassePersonagem) (level forcaBase defesaBase : Int) :
    List PersonagemError :=
  let levelRes : List PersonagemError :=
    if ¬(1 ≤ level) then [PersonagemError.outOfRangeLevel] else []
  let forcaRes : List PersonagemError × Bool :=
    if ¬(0 ≤ forcaBase ∧ forcaBase ≤ 10) then
      ([PersonagemError.outOfRangeForcaBase], false)
    else ([], true)
  let defesaRes : List PersonagemError :=
    if ¬(0 ≤ defesaBase ∧ defesaBase ≤ 10) then
      [PersonagemError.outOfRangeDefesaBase]
    else if forcaRes.2 ∧ forcaBase + defesaBase > 10 then
      [PersonagemError.budgetExceeded]
    else []
  levelRes ++ forcaRes.1 ++ defesaRes

/-- Row of the `itens_magicos` table (src/models.py `ItemMagico`). -/
structure ItemMagico where
  id : Nat
  nome : String
  tipo : TipoItem
  forca : Int
  defesa : Int
  personagem_id : Option Nat
deriving DecidableEq, Repr

/-- Row of the `personagens` table (src/models.py `Personagem`). -/
structure Personagem where
  id : Nat
  nome : String
  nome_aventureiro : String
  classe : ClassePersonagem
  level : Int
  forca_base : Int
  defesa_base : Int
deriving DecidableEq, Repr

/-- The persistent store: the two tables, in stable storage order. -/
structure DB where
  personagens : List Personagem
  itens_magicos : List ItemMagico
deriving DecidableEq, Repr

/-- `db.query(Personagem).filter(Personagem.id == personagem_id).first()`. -/
def findPersonagem (db : DB) (personagemId : Nat) : Option Personagem :=
  db.personagens.find? (fun p => decide (p.id = personagemId))

/-- `db.query(ItemMagico).filter(ItemMagico.id == item_id).first()`. -/
def findItem (db : DB) (itemId : Nat) : Option ItemMagico :=
  db.itens_magicos.find? (fun i => decide (i.id = itemId))

/-- Error results of the route handlers (the HTTPException raises). -/
inductive AppError where
  | personagemNaoEncontrado
  | itemNaoEncontrado
  | itemJaAtribuido
  | amuletoConflito
  | itemNaoNoInventario
deriving DecidableEq, Repr

/-- A fresh primary key for the `itens_magicos` table, as the store assigns
one on insert: strictly larger than every existing id. -/
def freshItemId (db : DB) : Nat :=
  (db.itens_magicos.map (fun i => i.id)).foldr max 0 + 1

/-- A fresh primary key for the `personagens` table. -/
def freshPersonagemId (db : DB) : Nat :=
  (db.personagens.map (fun p => p.id)).foldr max 0 + 1

/-- `criar_personagem` (src/main.py lines 126-141): inserts a new row with a
store-assigned id; validation of the input happened at the pydantic layer. -/
def criar_personagem (db : DB) (nome nomeAventureiro : String)
    (classe : ClassePersonagem) (level forcaBase defesaBase : Int) : DB :=
  { db with
    personagens := db.personagens ++
      [{ id := freshPersonagemId db, nome := nome,
         nome_aventureiro := nomeAventureiro, classe := classe,
         level := level, forca_base := forcaBase,
         defesa_base := defesaBase }] }

/-- `criar_item_magico` (src/main.py lines 244-254): inserts a new row with a
store-assigned id and no owner (`personagem_id` is not set on creation). -/
def criar_item_magico (db : DB) (nome : String) (tipo : TipoItem)
    (forca defesa : Int) : DB :=
  { db with
    itens_magicos := db.itens_magicos ++
      [{ id := freshItemId db, nome := nome, tipo := tipo, forca := forca,
         defesa := defesa, personagem_id := none }] }

/-- `atualizar_nome_aventureiro` (src/main.py lines 185-200): 404 when the
character is absent, otherwise overwrite its `nome_aventureiro`. -/
def atualizar_nome_aventureiro (db : DB) (personagemId : Nat)
    (nomeAventureiro : String) : Except AppError DB :=
  match findPersonagem db personagemId with
  | none => .error .personagemNaoEncontrado
  | some _ =>
    .ok { db with
      personagens := db.personagens.map (fun p =>
        if p.id = personagemId then { p with nome_aventureiro := nomeAventureiro }
        else p) }

/-- `remover_personagem` (src/main.py lines 209-225): 404 when the character
is absent; otherwise `personagem.itens_magicos` (the items whose
`personagem_id` is this character) each get `personagem_id = None`, then the
character row is deleted. -/
def remover_personagem (db : DB) (personagemId : Nat) : Except AppError DB :=
  match findPersonagem db personagemId with
  | none => .error .personagemNaoEncontrado
  | some _ =>
    .ok { db with
      personagens := db.personagens.filter (fun p => decide (p.id ≠ personagemId)),
      itens_magicos := db.itens_magicos.map (fun i =>
        if i.personagem_id = some personagemId then { i with personagem_id := none }
        else i) }

/-- `adicionar_item_personagem` (src/main.py lines 297-338): 404s for a
missing character or item; 400 `itemJaAtribuido` when the item is owned by a
different character; for an amulet, 400 `amuletoConflito` when the first
amulet already owned by this character is a different item; otherwise sets
the item's `personagem_id` to the found character's id. -/
def adicionar_item_personagem (db : DB) (personagemId itemId : Nat) :
    Except AppError DB :=
  match findPersonagem db personagemId with
  | none => .error .personagemNaoEncontrado
  | some personagem =>
    match findItem db itemId with
    | none => .error .itemNaoEncontrado
    | some item =>
      if item.personagem_id ≠ none ∧ item.personagem_id ≠ some personagemId then
        .error .itemJaAtribuido
      else
        let attach : DB :=
          { db with
            itens_magicos := db.itens_magicos.map (fun i =>
              if i.id = itemId then { i with personagem_id := some personagem.id }
              else i) }
        if item.tipo = TipoItem.AMULETO then
          match db.itens_magicos.find? (fun i =>
              decide (i.personagem_id = some personagemId ∧
                i.tipo = TipoItem.AMULETO)) with
          | some amuletoExistente =>
            if amuletoExistente.id ≠ item.id then .error .amuletoConflito
            else .ok attach
          | none => .ok attach
        else .ok attach

/-- `remover_item_do_personagem` (src/main.py lines 367-393): 404 for a
missing character; 404 `itemNaoNoInventario` when no item has this id AND
this owner; otherwise clears the found item's `personagem_id`. -/
def remover_item_do_personagem (db : DB) (personagemId itemId : Nat) :
    Except AppError DB :=
  match findPersonagem db personagemId with
  | none => .error .personagemNaoEncontrado
  | some _ =>
    match db.itens_magicos.find? (fun i =>
        decide (i.id = itemId ∧ i.personagem_id = some personagemId)) with
    | none => .error .itemNaoNoInventario
    | some _ =>
      .ok { db with
        itens_magicos := db.itens_magicos.map (fun i =>
          if i.id = itemId ∧ i.personagem_id = some personagemId then
            { i with personagem_id := none }
          else i) }

/-- Primary keys of the `itens_magicos` table are unique. -/
def NodupItemIds (db : DB) : Prop :=
  (db.itens_magicos.map (fun i => i.id)).Nodup

/-- Primary keys of the `personagens` table are unique. -/
def NodupPersonagemIds (db : DB) : Prop :=
  (db.personagens.map (fun p => p.id)).Nodup

instance (db : DB) : Decidable (NodupItemIds db) := by
  unfold NodupItemIds; infer_instance

instance (db : DB) : Decidable (NodupPersonagemIds db) := by
  unfold NodupPersonagemIds; infer_instance

/-- At most one item of type Amulet has a given owner: two owned amulet rows
with the same owner are the same row. -/
def AmuletUnique (db : DB) : Prop :=
  ∀ i ∈ db.itens_magicos, ∀ j ∈ db.itens_magicos,
    i.tipo = TipoItem.AMULETO → j.tipo = TipoItem.AMULETO →
    i.personagem_id ≠ none → i.personagem_id = j.personagem_id → i.id = j.id

instance (db : DB) : Decidable (AmuletUnique db) := by
  unfold AmuletUnique; infer_instance


/-- Exactly one of two propositions holds. -/
def ExactlyOne (a b : Prop) : Prop := (a ∧ ¬ b) ∨ (b ∧ ¬ a)

/-! ## Validation-layer lemmas -/

/-- For attribute values inside the `conint(ge=0, le=10)` ranges, item
validation reduces to the three business checks, evaluated in order. -/
lemma validarItem_in_range (nome : String) (tipo : TipoItem)
    (forca defesa : Int) (hf1 : 0 ≤ forca) (hf2 : forca ≤ 10)
    (hd1 : 0 ≤ defesa) (hd2 : defesa ≤ 10) :
    validarItem nome tipo forca defesa =
      if tipo = TipoItem.ARMADURA ∧ forca ≠ 0 then [ItemError.armaduraComForca]
      else if tipo = TipoItem.ARMA ∧ defesa ≠ 0 then [ItemError.armaComDefesa]
      else if forca = 0 ∧ defesa = 0 then [ItemError.semAtributo]
      else [] := by
  simp only [validarItem]
  split_ifs <;> simp_all

/-- For attribute values inside the ranges and a valid level, character
validation reduces to the budget check. -/
lemma validarPersonagem_in_range (nome nomeAventureiro : String)
    (classe : ClassePersonagem) (level forcaBase defesaBase : Int)
    (hl : 1 ≤ level) (hf1 : 0 ≤ forcaBase) (hf2 : forcaBase ≤ 10)
    (hd1 : 0 ≤ defesaBase) (hd2 : defesaBase ≤ 10) :
    validarPersonagem nome nomeAventureiro classe level forcaBase defesaBase =
      if forcaBase + defesaBase > 10 then [PersonagemError.budgetExceeded]
      else [] := by
  simp only [validarPersonagem]
  split_ifs <;> simp_all

/-- C3: item field validation enforces type-consistency: for every input of
the declared field types (attributes within [0,10]), an Armor with nonzero
strength fails with the Armor type-consistency error, a Weapon with nonzero
defense fails with the Weapon type-consistency error, and an Amulet is never
rejected with a type-consistency error. -/
theorem c3_type_consistency (nome : String) (tipo : TipoItem)
    (forca defesa : Int) (hf : 0 ≤ forca ∧ forca ≤ 10)
    (hd : 0 ≤ defesa ∧ defesa ≤ 10) :
    (tipo = TipoItem.ARMADURA → forca ≠ 0 →
      validarItem nome tipo forca defesa = [ItemError.armaduraComForca]) ∧
    (tipo = TipoItem.ARMA → defesa ≠ 0 →
      validarItem nome tipo forca defesa = [ItemError.armaComDefesa]) ∧
    (tipo = TipoItem.AMULETO →
      ∀ e ∈ validarItem nome tipo forca defesa, e.isTypeMismatch = false) := by
  rw [validarItem_in_range nome tipo forca defesa hf.1 hf.2 hd.1 hd.2]
  refine ⟨?_, ?_, ?_⟩
  · intro h1 h2
    rw [if_pos ⟨h1, h2⟩]
  · intro h1 h2
    rw [if_neg (by simp [h1]), if_pos ⟨h1, h2⟩]
  · intro h1 e he
    rw [if_neg (by simp [h1]), if_neg (by simp [h1])] at he
    split_ifs at he <;> simp_all [ItemError.isTypeMismatch]

/-- C3 witness: an in-range Armor with nonzero strength is rejected with the
Armor type-consistency error. -/
theorem c3_type_consistency_witness :
    ((0:Int) ≤ 3 ∧ (3:Int) ≤ 10) ∧ ((0:Int) ≤ 0 ∧ (0:Int) ≤ 10) ∧
    (TipoItem.ARMADURA = TipoItem.ARMADURA → (3:Int) ≠ 0 →
      validarItem "Escudo" TipoItem.ARMADURA 3 0 = [ItemError.armaduraComForca]) :=
  ⟨by decide, by decide,
    (c3_type_consistency "Escudo" TipoItem.ARMADURA 3 0 (by decide) (by decide)).1⟩

/-- C4: character validation fails with BudgetExceeded exactly when
base_strength + base_defense > 10, given in-range bases and level; the
(6,4) character is accepted and the (7,4) character is rejected with
BudgetExceeded. -/
theorem c4_budget_exceeded (nome nomeAventureiro : String)
    (classe : ClassePersonagem) (level forcaBase defesaBase : Int)
    (hl : 1 ≤ level) (hf : 0 ≤ forcaBase ∧ forcaBase ≤ 10)
    (hd : 0 ≤ defesaBase ∧ defesaBase ≤ 10) :
    (validarPersonagem nome nomeAventureiro classe level forcaBase defesaBase =
        [PersonagemError.budgetExceeded] ↔ forcaBase + defesaBase > 10) ∧
    (validarPersonagem nome nomeAventureiro classe level forcaBase defesaBase =
        [] ↔ forcaBase + defesaBase ≤ 10) ∧
    validarPersonagem "a" "b" ClassePersonagem.GUERREIRO 1 6 4 = [] ∧
    validarPersonagem "a" "b" ClassePersonagem.GUERREIRO 1 7 4 =
      [PersonagemError.budgetExceeded] := by
  rw [validarPersonagem_in_range nome nomeAventureiro classe level forcaBase
    defesaBase hl hf.1 hf.2 hd.1 hd.2]
  refine ⟨?_, ?_, by decide, by decide⟩
  · split_ifs with h <;> simp [h]
  · split_ifs with h <;> (simp [h]; try omega)

/-- C4 witness: the (6,4) and (7,4) examples, instantiating the theorem. -/
theorem c4_budget_exceeded_witness :
    ((1:Int) ≤ 1) ∧ ((0:Int) ≤ 6 ∧ (6:Int) ≤ 10) ∧ ((0:Int) ≤ 4 ∧ (4:Int) ≤ 10) ∧
    (validarPersonagem "a" "b" ClassePersonagem.GUERREIRO 1 6 4 = [] ↔
      (6:Int) + 4 ≤ 10) :=
  ⟨by decide, by decide, by decide,
    (c4_budget_exceeded "a" "b" ClassePersonagem.GUERREIRO 1 6 4 (by decide)
      (by decide) (by decide)).2.1⟩

/-- C6: an Armor with strength 0 and defense 0 is rejected with the
zero-attribute error, not a type-consistency error: both type checks pass
and then the zero-attribute check fails. -/
theorem c6_zero_attribute_order (nome : String) :
    validarItem nome TipoItem.ARMADURA 0 0 = [ItemError.semAtributo] ∧
    ∀ e ∈ validarItem nome TipoItem.ARMADURA 0 0, e.isTypeMismatch = false := by
  refine ⟨rfl, ?_⟩
  intro e he
  rw [show validarItem nome TipoItem.ARMADURA 0 0 = [ItemError.semAtributo]
    from rfl] at he
  simp_all [ItemError.isTypeMismatch]

/-- C8 counterexample: a Weapon with strength 5, defense 0 is accepted by
validation, yet BOTH implications (Weapon implies zero defense) and (Armor
implies zero strength) hold for it, so it is false that exactly one of them
holds. -/
theorem c8_counterexample :
    validarItem "Espada" TipoItem.ARMA 5 0 = [] ∧
    ¬ ExactlyOne (TipoItem.ARMA = TipoItem.ARMA → (0:Int) = 0)
      (TipoItem.ARMA = TipoItem.ARMADURA → (5:Int) = 0) := by
  constructor
  · decide
  · unfold ExactlyOne
    decide

/-- C8 amended: for every item accepted by validation, BOTH implications
(Weapon implies zero defense) and (Armor implies zero strength) hold, and
strength > 0 or defense > 0. -/
theorem c8_accepted_item_invariants (nome : String) (tipo : TipoItem)
    (forca defesa : Int) (h : validarItem nome tipo forca defesa = []) :
    (tipo = TipoItem.ARMA → defesa = 0) ∧
    (tipo = TipoItem.ARMADURA → forca = 0) ∧
    (0 < forca ∨ 0 < defesa) := by
  simp only [validarItem] at h
  split_ifs at h <;> (simp_all; try omega)

/-- C8 witness: the accepted Weapon (strength 5, defense 0) satisfies both
implications and the positivity disjunction. -/
theorem c8_accepted_item_invariants_witness :
    validarItem "Machado" TipoItem.ARMA 5 0 = [] ∧
    ((TipoItem.ARMA = TipoItem.ARMA → (0:Int) = 0) ∧
     (TipoItem.ARMA = TipoItem.ARMADURA → (5:Int) = 0) ∧
     ((0:Int) < 5 ∨ (0:Int) < 0)) :=
  ⟨by decide, c8_accepted_item_invariants "Machado" TipoItem.ARMA 5 0 (by decide)⟩

/-- C9 counterexample: a character with empty name and empty adventurer name
passes validation, and an item with empty name passes validation: empty
names are not rejected. -/
theorem c9_counterexample :
    validarPersonagem "" "" ClassePersonagem.GUERREIRO 1 5 5 = [] ∧
    validarItem "" TipoItem.AMULETO 1 1 = [] ∧
    ("" : String).length = 0 := by
  refine ⟨by decide, by decide, rfl⟩

/-- C9 amended: validation never inspects the name fields: the result of
character validation is independent of name and adventurer_name, and the
result of item validation is independent of name; in particular empty names
are accepted whenever the numeric constraints hold. -/
theorem c9_names_unchecked :
    (∀ (n a n2 a2 : String) (classe : ClassePersonagem) (level f d : Int),
      validarPersonagem n a classe level f d =
        validarPersonagem n2 a2 classe level f d) ∧
    (∀ (n n2 : String) (tipo : TipoItem) (f d : Int),
      validarItem n tipo f d = validarItem n2 tipo f d) ∧
    validarPersonagem "" "" ClassePersonagem.MAGO 1 0 10 = [] ∧
    validarItem "" TipoItem.ARMA 10 0 = [] :=
  ⟨fun _ _ _ _ _ _ _ _ => rfl, fun _ _ _ _ _ => rfl, by decide, by decide⟩

/-! ## Store-level helper lemmas -/

/-- A record update that writes the owner field with its current value is the
identity. -/
lemma ItemMagico.set_owner_self (i : ItemMagico) (x : Option Nat)
    (h : i.personagem_id = x) : { i with personagem_id := x } = i := by
  cases i
  simp_all

/-- Mapping a function that fixes every member of a list is the identity. -/
lemma map_id_of_mem_fix {α : Type} (l : List α) (f : α → α)
    (h : ∀ x ∈ l, f x = x) : l.map f = l := by
  induction l with
  | nil => rfl
  | cons a l ih =>
    simp only [List.map_cons, h a (List.mem_cons_self a l)]
    rw [ih (fun x hx => h x (List.mem_cons_of_mem a hx))]

/-- With unique item ids, two rows of the table with the same id are the
same row. -/
lemma eq_of_id_eq (db : DB) (hnd : NodupItemIds db) {i j : ItemMagico}
    (hi : i ∈ db.itens_magicos) (hj : j ∈ db.itens_magicos)
    (h : i.id = j.id) : i = j :=
  List.inj_on_of_nodup_map hnd hi hj h

/-- Searching a mapped item list by id, when the function preserves ids,
finds the image of the original search result. -/
lemma find?_id_map (l : List ItemMagico) (f : ItemMagico → ItemMagico)
    (hf : ∀ i, (f i).id = i.id) (itemId : Nat) :
    (l.map f).find? (fun i => decide (i.id = itemId)) =
      (l.find? (fun i => decide (i.id = itemId))).map f := by
  induction l with
  | nil => rfl
  | cons a l ih =>
    by_cases hc : a.id = itemId
    · rw [List.map_cons, List.find?_cons_of_pos _ (by simp [hf, hc]),
        List.find?_cons_of_pos _ (by simp [hc])]
      rfl
    · rw [List.map_cons, List.find?_cons_of_neg _ (by simp [hf, hc]),
        List.find?_cons_of_neg _ (by simp [hc]), ih]

/-- Every member of a list of naturals is bounded by its max-fold. -/
lemma mem_le_foldr_max (l : List Nat) : ∀ x ∈ l, x ≤ l.foldr max 0 := by
  induction l with
  | nil => simp
  | cons a l ih =>
    intro x hx
    rcases List.mem_cons.mp hx with h | h
    · subst h
      exact le_max_left _ _
    · exact le_trans (ih x h) (le_max_right _ _)

/-- The store-assigned id of a new item is not an existing item id. -/
lemma freshItemId_not_mem (db : DB) :
    freshItemId db ∉ db.itens_magicos.map (fun i => i.id) := by
  intro h
  have := mem_le_foldr_max (db.itens_magicos.map (fun i => i.id)) _ h
  simp only [freshItemId] at this
  omega

/-! ## Rename and delete -/

/-- C10: renaming the adventurer name of an existing character succeeds and
changes only that character's adventurer_name: items (hence every owner_id)
are untouched, no character row appears or disappears, and every character
row keeps its id, name, class, level and base attributes, with the
adventurer name changed exactly on the addressed character. -/
theorem c10_rename_frame (db : DB) (personagemId : Nat) (novo : String)
    (p : Personagem) (hp : findPersonagem db personagemId = some p) :
    ∃ db2, atualizar_nome_aventureiro db personagemId novo = .ok db2 ∧
      db2.itens_magicos = db.itens_magicos ∧
      db2.personagens.length = db.personagens.length ∧
      (∀ q ∈ db.personagens, ∃ q2 ∈ db2.personagens,
        q2.id = q.id ∧ q2.nome = q.nome ∧ q2.classe = q.classe ∧
        q2.level = q.level ∧ q2.forca_base = q.forca_base ∧
        q2.defesa_base = q.defesa_base ∧
        (q.id ≠ personagemId → q2.nome_aventureiro = q.nome_aventureiro) ∧
        (q.id = personagemId → q2.nome_aventureiro = novo)) := by
  simp only [atualizar_nome_aventureiro, hp]
  refine ⟨_, rfl, rfl, by simp, ?_⟩
  intro q hq
  refine ⟨if q.id = personagemId then { q with nome_aventureiro := novo } else q,
    List.mem_map_of_mem _ hq, ?_⟩
  by_cases hid : q.id = personagemId <;> simp [hid]

/-- A small concrete store: one character owning an amulet, plus an unowned
weapon. -/
def dbEx : DB :=
  { personagens := [⟨1, "Conan", "Barbaro", ClassePersonagem.GUERREIRO, 1, 6, 4⟩],
    itens_magicos := [⟨1, "Colar", TipoItem.AMULETO, 1, 1, some 1⟩,
                      ⟨2, "Espada", TipoItem.ARMA, 5, 0, none⟩] }

/-- C10 witness: renaming character 1 of the concrete store. -/
theorem c10_rename_frame_witness :
    findPersonagem dbEx 1 =
      some ⟨1, "Conan", "Barbaro", ClassePersonagem.GUERREIRO, 1, 6, 4⟩ ∧
    ∃ db2, atualizar_nome_aventureiro dbEx 1 "Rei" = .ok db2 ∧
      db2.itens_magicos = dbEx.itens_magicos ∧
      db2.personagens.length = dbEx.personagens.length ∧
      (∀ q ∈ dbEx.personagens, ∃ q2 ∈ db2.personagens,
        q2.id = q.id ∧ q2.nome = q.nome ∧ q2.classe = q.classe ∧
        q2.level = q.level ∧ q2.forca_base = q.forca_base ∧
        q2.defesa_base = q.defesa_base ∧
        (q.id ≠ 1 → q2.nome_aventureiro = q.nome_aventureiro) ∧
        (q.id = 1 → q2.nome_aventureiro = "Rei")) :=
  ⟨rfl, c10_rename_frame dbEx 1 "Rei" _ rfl⟩

/-- C5: deleting an existing character succeeds; afterwards the character is
no longer retrievable, no item row was deleted, every item row keeps its id,
name, type and attributes, the owner of the deleted character's items is
cleared (all other owners unchanged), and every item remains retrievable by
its id. -/
theorem c5_delete_character (db : DB) (personagemId : Nat) (p : Personagem)
    (hp : findPersonagem db personagemId = some p) :
    ∃ db2, remover_personagem db personagemId = .ok db2 ∧
      findPersonagem db2 personagemId = none ∧
      db2.itens_magicos.length = db.itens_magicos.length ∧
      (∀ i ∈ db.itens_magicos, ∃ i2 ∈ db2.itens_magicos,
        i2.id = i.id ∧ i2.nome = i.nome ∧ i2.tipo = i.tipo ∧
        i2.forca = i.forca ∧ i2.defesa = i.defesa ∧
        i2.personagem_id =
          (if i.personagem_id = some personagemId then none
           else i.personagem_id)) ∧
      (∀ i ∈ db.itens_magicos, (findItem db2 i.id).isSome = true) := by
  simp only [remover_personagem, hp]
  refine ⟨_, rfl, ?_, by simp, ?_, ?_⟩
  · rw [findPersonagem]
    apply List.find?_eq_none.mpr
    intro x hx
    have hm := List.mem_filter.mp hx
    simp only [decide_eq_true_eq] at hm ⊢
    exact hm.2
  · intro i hi
    refine ⟨if i.personagem_id = some personagemId then
        { i with personagem_id := none } else i,
      List.mem_map_of_mem _ hi, ?_⟩
    by_cases hid : i.personagem_id = some personagemId <;> simp [hid]
  · intro i hi
    rw [findItem]
    simp only [List.find?_isSome]
    refine ⟨if i.personagem_id = some personagemId then
        { i with personagem_id := none } else i,
      List.mem_map_of_mem _ hi, ?_⟩
    by_cases hid : i.personagem_id = some personagemId <;> simp [hid]

/-- C5 witness: deleting character 1 of the concrete store. -/
theorem c5_delete_character_witness :
    findPersonagem dbEx 1 =
      some ⟨1, "Conan", "Barbaro", ClassePersonagem.GUERREIRO, 1, 6, 4⟩ ∧
    ∃ db2, remover_personagem dbEx 1 = .ok db2 ∧
      findPersonagem db2 1 = none ∧
      db2.itens_magicos.length = dbEx.itens_magicos.length ∧
      (∀ i ∈ dbEx.itens_magicos, ∃ i2 ∈ db2.itens_magicos,
        i2.id = i.id ∧ i2.nome = i.nome ∧ i2.tipo = i.tipo ∧
        i2.forca = i.forca ∧ i2.defesa = i.defesa ∧
        i2.personagem_id =
          (if i.personagem_id = some 1 then none else i.personagem_id)) ∧
      (∀ i ∈ dbEx.itens_magicos, (findItem db2 i.id).isSome = true) :=
  ⟨rfl, c5_delete_character dbEx 1 _ rfl⟩

/-! ## Detach -/

/-- C7: for an existing character and unique item ids, detaching an item
that exists but is unowned or owned by a different character fails with the
inventory not-found error (there is no permission error in the error type);
detaching an item the character owns succeeds, clears exactly that item's
owner, keeps the item retrievable by its id, and touches no character row. -/
theorem c7_detach_not_found_and_clear (db : DB) (personagemId itemId : Nat)
    (p : Personagem) (hp : findPersonagem db personagemId = some p)
    (hnd : NodupItemIds db) :
    (∀ item, findItem db itemId = some item →
      item.personagem_id ≠ some personagemId →
      remover_item_do_personagem db personagemId itemId =
        .error .itemNaoNoInventario) ∧
    (∀ item, findItem db itemId = some item →
      item.personagem_id = some personagemId →
      ∃ db2, remover_item_do_personagem db personagemId itemId = .ok db2 ∧
        findItem db2 itemId = some { item with personagem_id := none } ∧
        db2.personagens = db.personagens ∧
        db2.itens_magicos.length = db.itens_magicos.length) := by
  constructor
  · intro item hitem howner
    have hnone : db.itens_magicos.find? (fun i =>
        decide (i.id = itemId ∧ i.personagem_id = some personagemId)) = none := by
      apply List.find?_eq_none.mpr
      intro x hx
      simp only [decide_eq_true_eq, not_and]
      intro hxid
      have hx2 : x = item :=
        eq_of_id_eq db hnd hx (List.mem_of_find?_eq_some hitem)
          (by
            have := List.find?_some hitem
            simp only [decide_eq_true_eq] at this
            rw [hxid, this])
      rw [hx2]
      exact howner
    rw [remover_item_do_personagem, hp, hnone]
  · intro item hitem howner
    have hsome : (db.itens_magicos.find? (fun i =>
        decide (i.id = itemId ∧ i.personagem_id = some personagemId))).isSome =
        true := by
      simp only [List.find?_isSome]
      refine ⟨item, List.mem_of_find?_eq_some hitem, ?_⟩
      have := List.find?_some hitem
      simp only [decide_eq_true_eq] at this ⊢
      exact ⟨this, howner⟩
    obtain ⟨found, hfound⟩ := Option.isSome_iff_exists.mp hsome
    have hitemid : item.id = itemId := by
      have := List.find?_some hitem
      simpa using this
    simp only [remover_item_do_personagem, hp, hfound]
    refine ⟨_, rfl, ?_, rfl, by simp⟩
    rw [findItem]
    rw [find?_id_map _ _ (fun i => by split <;> rfl) itemId]
    rw [show db.itens_magicos.find? (fun i => decide (i.id = itemId)) =
      some item from hitem]
    simp only [Option.map_some']
    rw [if_pos ⟨hitemid, howner⟩]

/-- C7 witness: detaching the owned amulet (item 1) from character 1 of the
concrete store succeeds and clears its owner. -/
theorem c7_detach_witness :
    findPersonagem dbEx 1 =
      some ⟨1, "Conan", "Barbaro", ClassePersonagem.GUERREIRO, 1, 6, 4⟩ ∧
    NodupItemIds dbEx ∧
    findItem dbEx 1 = some ⟨1, "Colar", TipoItem.AMULETO, 1, 1, some 1⟩ ∧
    ∃ db2, remover_item_do_personagem dbEx 1 1 = .ok db2 ∧
      findItem db2 1 = some ⟨1, "Colar", TipoItem.AMULETO, 1, 1, none⟩ ∧
      db2.personagens = dbEx.personagens ∧
      db2.itens_magicos.length = dbEx.itens_magicos.length :=
  ⟨rfl, by decide, rfl,
    (c7_detach_not_found_and_clear dbEx 1 1 _ rfl (by decide)).2 _ rfl rfl⟩

/-! ## Attach -/

/-- C2: for an existing character and existing item (with unique item ids
and the one-amulet invariant), attaching fails with the already-owned error
exactly when the item's owner is set and is a different character; and
re-attaching an item to its current owner succeeds and leaves the store
unchanged, amulets included. -/
theorem c2_already_owned_iff_and_reattach_noop (db : DB)
    (personagemId itemId : Nat) (p : Personagem) (item : ItemMagico)
    (hp : findPersonagem db personagemId = some p)
    (hi : findItem db itemId = some item)
    (hnd : NodupItemIds db) (hau : AmuletUnique db) :
    (adicionar_item_personagem db personagemId itemId =
        .error .itemJaAtribuido ↔
      (item.personagem_id ≠ none ∧ item.personagem_id ≠ some personagemId)) ∧
    (item.personagem_id = some personagemId →
      adicionar_item_personagem db personagemId itemId = .ok db) := by
  have hpid : p.id = personagemId := by
    have := List.find?_some hp
    simpa using this
  have hitemid : item.id = itemId := by
    have := List.find?_some hi
    simpa using this
  have hmem : item ∈ db.itens_magicos := List.mem_of_find?_eq_some hi
  simp only [adicionar_item_personagem, hp, hi]
  constructor
  · by_cases hc : item.personagem_id ≠ none ∧ item.personagem_id ≠ some personagemId
    · rw [if_pos hc]
      simp [hc]
    · rw [if_neg hc]
      constructor
      · intro h
        exfalso
        by_cases ht : item.tipo = TipoItem.AMULETO
        · rw [if_pos ht] at h
          cases hfind : db.itens_magicos.find? (fun i =>
              decide (i.personagem_id = some personagemId ∧
                i.tipo = TipoItem.AMULETO)) with
          | none =>
            simp only [hfind] at h
            exact absurd h (by simp)
          | some a =>
            simp only [hfind] at h
            by_cases haid : a.id ≠ item.id
            · rw [if_pos haid] at h
              exact absurd h (by simp)
            · rw [if_neg haid] at h
              exact absurd h (by simp)
        · rw [if_neg ht] at h
          exact absurd h (by simp)
      · intro h
        exact absurd h hc
  · intro howner
    have hc : ¬(item.personagem_id ≠ none ∧
        item.personagem_id ≠ some personagemId) := by
      simp [howner]
    rw [if_neg hc]
    have hattach : db.itens_magicos.map (fun i =>
        if i.id = itemId then { i with personagem_id := some p.id } else i) =
        db.itens_magicos := by
      apply map_id_of_mem_fix
      intro x hx
      by_cases hxid : x.id = itemId
      · have hxi : x = item := eq_of_id_eq db hnd hx hmem (hxid.trans hitemid.symm)
        rw [if_pos hxid, hxi, hpid]
        exact ItemMagico.set_owner_self item (some personagemId) howner
      · rw [if_neg hxid]
    by_cases ht : item.tipo = TipoItem.AMULETO
    · rw [if_pos ht]
      have hfind : ∃ a, db.itens_magicos.find? (fun i =>
          decide (i.personagem_id = some personagemId ∧
            i.tipo = TipoItem.AMULETO)) = some a := by
        apply Option.isSome_iff_exists.mp
        simp only [List.find?_isSome]
        exact ⟨item, hmem, by simp [howner, ht]⟩
      obtain ⟨a, ha⟩ := hfind
      have hamem := List.mem_of_find?_eq_some ha
      have hap := List.find?_some ha
      simp only [decide_eq_true_eq] at hap
      have haid : a.id = item.id :=
        hau a hamem item hmem hap.2 ht (by simp [hap.1])
          (by rw [hap.1, howner])
      simp only [ha]
      rw [if_neg (by simp [haid]), hattach]
    · rw [if_neg ht, hattach]

/-- C2 witness: re-attaching the owned amulet (item 1) to its owner
(character 1) in the concrete store is a no-op success, and the
already-owned error does not fire. -/
theorem c2_witness :
    findPersonagem dbEx 1 =
      some ⟨1, "Conan", "Barbaro", ClassePersonagem.GUERREIRO, 1, 6, 4⟩ ∧
    findItem dbEx 1 = some ⟨1, "Colar", TipoItem.AMULETO, 1, 1, some 1⟩ ∧
    NodupItemIds dbEx ∧ AmuletUnique dbEx ∧
    ((adicionar_item_personagem dbEx 1 1 = .error .itemJaAtribuido ↔
        ((some 1 : Option Nat) ≠ none ∧
         (some 1 : Option Nat) ≠ some 1)) ∧
     ((some 1 : Option Nat) = some 1 →
        adicionar_item_personagem dbEx 1 1 = .ok dbEx)) :=
  ⟨rfl, rfl, by decide, by decide,
    c2_already_owned_iff_and_reattach_noop dbEx 1 1 _ _ rfl rfl
      (by decide) (by decide)⟩

/-! ## Amulet-uniqueness preservation helpers -/

/-- The amulet invariant only reads the item table. -/
lemma amuletUnique_of_itens_eq (db db2 : DB)
    (h : db2.itens_magicos = db.itens_magicos) (hau : AmuletUnique db) :
    AmuletUnique db2 := by
  intro i2 hi2 j2 hj2
  rw [h] at hi2 hj2
  exact hau i2 hi2 j2 hj2

/-- Unique item ids only read the item table. -/
lemma nodupItemIds_of_itens_eq (db db2 : DB)
    (h : db2.itens_magicos = db.itens_magicos) (hnd : NodupItemIds db) :
    NodupItemIds db2 := by
  unfold NodupItemIds at *
  rw [h]
  exact hnd

/-- An update that only clears owners preserves the amulet invariant. -/
lemma amuletUnique_clear_of_eq (db db2 : DB) (cond : ItemMagico → Prop)
    [DecidablePred cond]
    (h2 : db2.itens_magicos = db.itens_magicos.map (fun i =>
      if cond i then { i with personagem_id := none } else i))
    (hau : AmuletUnique db) : AmuletUnique db2 := by
  intro i2 hi2 j2 hj2 ht2 ht3 hnone heq
  rw [h2] at hi2 hj2
  simp only [List.mem_map] at hi2 hj2
  obtain ⟨i0, hi0, rfl⟩ := hi2
  obtain ⟨j0, hj0, rfl⟩ := hj2
  by_cases hci : cond i0 <;> by_cases hcj : cond j0 <;>
    simp only [hci, hcj, if_pos, if_neg, if_true, if_false] at ht2 ht3 hnone heq ⊢
  · exact absurd rfl hnone
  · exact absurd rfl hnone
  · exact absurd heq (by simp_all)
  · exact hau i0 hi0 j0 hj0 ht2 ht3 hnone heq

/-- Appending an unowned item preserves the amulet invariant. -/
lemma amuletUnique_append_unowned_of_eq (db db2 : DB) (x : ItemMagico)
    (hx : x.personagem_id = none)
    (h2 : db2.itens_magicos = db.itens_magicos ++ [x])
    (hau : AmuletUnique db) : AmuletUnique db2 := by
  intro i2 hi2 j2 hj2 ht2 ht3 hnone heq
  rw [h2] at hi2 hj2
  simp only [List.mem_append, List.mem_singleton] at hi2 hj2
  rcases hi2 with hi2 | rfl
  · rcases hj2 with hj2 | rfl
    · exact hau i2 hi2 j2 hj2 ht2 ht3 hnone heq
    · exact absurd (heq.trans hx) hnone
  · exact absurd hx hnone

/-- Setting the owner of the item with id `itemId` to `pid` preserves the
amulet invariant, provided that when that item is an amulet, every amulet
already owned by `pid` has id `itemId`. -/
lemma amuletUnique_attach_of_eq (db db2 : DB) (pid itemId : Nat)
    (item : ItemMagico) (hnd : NodupItemIds db) (hau : AmuletUnique db)
    (hmem : item ∈ db.itens_magicos) (hitemid : item.id = itemId)
    (hconf : item.tipo = TipoItem.AMULETO →
      ∀ j ∈ db.itens_magicos, j.tipo = TipoItem.AMULETO →
        j.personagem_id = some pid → j.id = itemId)
    (h2 : db2.itens_magicos = db.itens_magicos.map (fun i =>
      if i.id = itemId then { i with personagem_id := some pid } else i)) :
    AmuletUnique db2 := by
  intro i2 hi2 j2 hj2 ht2 ht3 hnone heq
  rw [h2] at hi2 hj2
  simp only [List.mem_map] at hi2 hj2
  obtain ⟨i0, hi0, rfl⟩ := hi2
  obtain ⟨j0, hj0, rfl⟩ := hj2
  by_cases hii : i0.id = itemId <;> by_cases hjj : j0.id = itemId
  · rw [if_pos hii, if_pos hjj]
    show i0.id = j0.id
    rw [hii, hjj]
  · -- i0 is the attached item, j0 an untouched amulet now sharing owner pid
    rw [if_pos hii] at ht2 heq
    rw [if_neg hjj] at ht3 heq
    have hi0item : i0 = item := eq_of_id_eq db hnd hi0 hmem (hii.trans hitemid.symm)
    have hitamu : item.tipo = TipoItem.AMULETO := by
      rw [← hi0item]
      exact ht2
    have hjown : j0.personagem_id = some pid := Eq.symm heq
    exact absurd (hconf hitamu j0 hj0 ht3 hjown) hjj
  · -- j0 is the attached item, i0 an untouched amulet already owned by pid
    rw [if_neg hii] at ht2 heq
    rw [if_pos hjj] at ht3 heq
    have hj0item : j0 = item := eq_of_id_eq db hnd hj0 hmem (hjj.trans hitemid.symm)
    have hitamu : item.tipo = TipoItem.AMULETO := by
      rw [← hj0item]
      exact ht3
    have hiown : i0.personagem_id = some pid := heq
    exact absurd (hconf hitamu i0 hi0 ht2 hiown) hii
  · rw [if_neg hii] at ht2 hnone heq ⊢
    rw [if_neg hjj] at ht3 heq ⊢
    exact hau i0 hi0 j0 hj0 ht2 ht3 hnone heq

/-- A map that preserves ids preserves id uniqueness. -/
lemma nodupItemIds_of_map_id_eq (db db2 : DB) (f : ItemMagico → ItemMagico)
    (hf : ∀ i, (f i).id = i.id)
    (h2 : db2.itens_magicos = db.itens_magicos.map f)
    (hnd : NodupItemIds db) : NodupItemIds db2 := by
  unfold NodupItemIds at *
  rw [h2, List.map_map]
  have hc : ((fun i => i.id) ∘ f) = fun i : ItemMagico => i.id := funext hf
  rw [hc]
  exact hnd

/-- Appending an item with the store-assigned fresh id preserves id
uniqueness. -/
lemma nodupItemIds_of_append_fresh (db db2 : DB) (x : ItemMagico)
    (hx : x.id = freshItemId db)
    (h2 : db2.itens_magicos = db.itens_magicos ++ [x])
    (hnd : NodupItemIds db) : NodupItemIds db2 := by
  unfold NodupItemIds at *
  rw [h2, List.map_append]
  refine List.Nodup.append hnd (by simp) ?_
  intro a ha hb
  simp only [List.map_cons, List.map_nil, List.mem_singleton] at hb
  rw [hb, hx] at ha
  exact freshItemId_not_mem db ha

/-! ## Inversion of successful operations -/

/-- A successful rename leaves the item table unchanged. -/
lemma atualizar_ok_itens (db : DB) (personagemId : Nat) (nome : String)
    (db2 : DB) (h : atualizar_nome_aventureiro db personagemId nome = .ok db2) :
    db2.itens_magicos = db.itens_magicos := by
  cases hp : findPersonagem db personagemId with
  | none =>
    rw [atualizar_nome_aventureiro, hp] at h
    exact absurd h (by simp)
  | some p =>
    rw [atualizar_nome_aventureiro, hp] at h
    injection h with h
    rw [← h]

/-- A successful character deletion rewrites the item table by clearing the
owner of that character's items. -/
lemma remover_personagem_ok_itens (db : DB) (personagemId : Nat) (db2 : DB)
    (h : remover_personagem db personagemId = .ok db2) :
    db2.itens_magicos = db.itens_magicos.map (fun i =>
      if i.personagem_id = some personagemId then { i with personagem_id := none }
      else i) := by
  cases hp : findPersonagem db personagemId with
  | none =>
    rw [remover_personagem, hp] at h
    exact absurd h (by simp)
  | some p =>
    rw [remover_personagem, hp] at h
    injection h with h
    rw [← h]

/-- A successful detach rewrites the item table by clearing the owner of the
matching owned item. -/
lemma remover_item_ok_itens (db : DB) (personagemId itemId : Nat) (db2 : DB)
    (h : remover_item_do_personagem db personagemId itemId = .ok db2) :
    db2.itens_magicos = db.itens_magicos.map (fun i =>
      if i.id = itemId ∧ i.personagem_id = some personagemId then
        { i with personagem_id := none }
      else i) := by
  cases hp : findPersonagem db personagemId with
  | none =>
    rw [remover_item_do_personagem, hp] at h
    exact absurd h (by simp)
  | some p =>
    rw [remover_item_do_personagem, hp] at h
    cases hfind : db.itens_magicos.find? (fun i =>
        decide (i.id = itemId ∧ i.personagem_id = some personagemId)) with
    | none =>
      rw [hfind] at h
      exact absurd h (by simp)
    | some found =>
      rw [hfind] at h
      injection h with h
      rw [← h]

/-- A successful attach finds the item, guarantees that when it is an amulet
no distinct amulet is owned by the target character, and rewrites the item
table by setting that item's owner. -/
lemma adicionar_ok_inv (db : DB) (personagemId itemId : Nat) (db2 : DB)
    (hau : AmuletUnique db)
    (h : adicionar_item_personagem db personagemId itemId = .ok db2) :
    ∃ item, findItem db itemId = some item ∧ item.id = itemId ∧
      (item.tipo = TipoItem.AMULETO →
        ∀ j ∈ db.itens_magicos, j.tipo = TipoItem.AMULETO →
          j.personagem_id = some personagemId → j.id = itemId) ∧
      db2.itens_magicos = db.itens_magicos.map (fun i =>
        if i.id = itemId then { i with personagem_id := some personagemId }
        else i) := by
  cases hp : findPersonagem db personagemId with
  | none =>
    rw [adicionar_item_personagem, hp] at h
    exact absurd h (by simp)
  | some p =>
    have hpid : p.id = personagemId := by
      have := List.find?_some hp
      simpa using this
    cases hi : findItem db itemId with
    | none =>
      rw [adicionar_item_personagem, hp, hi] at h
      exact absurd h (by simp)
    | some item =>
      have hitemid : item.id = itemId := by
        have := List.find?_some hi
        simpa using this
      refine ⟨item, rfl, hitemid, ?_⟩
      simp only [adicionar_item_personagem, hp, hi] at h
      by_cases hc : item.personagem_id ≠ none ∧
          item.personagem_id ≠ some personagemId
      · rw [if_pos hc] at h
        exact absurd h (by simp)
      · rw [if_neg hc] at h
        by_cases ht : item.tipo = TipoItem.AMULETO
        · rw [if_pos ht] at h
          cases hfind : db.itens_magicos.find? (fun i =>
              decide (i.personagem_id = some personagemId ∧
                i.tipo = TipoItem.AMULETO)) with
          | none =>
            simp only [hfind] at h
            injection h with h
            refine ⟨?_, ?_⟩
            · intro _ j hj hjt hjo
              exact absurd (by simp [hjo, hjt])
                (List.find?_eq_none.mp hfind j hj)
            · rw [← h, ← hpid]
          | some a =>
            simp only [hfind] at h
            by_cases haid : a.id ≠ item.id
            · rw [if_pos haid] at h
              exact absurd h (by simp)
            · rw [if_neg haid] at h
              injection h with h
              push_neg at haid
              have hamem := List.mem_of_find?_eq_some hfind
              have hap := List.find?_some hfind
              simp only [decide_eq_true_eq] at hap
              refine ⟨?_, ?_⟩
              · intro _ j hj hjt hjo
                have hjid : j.id = a.id :=
                  hau j hj a hamem hjt hap.2 (by simp [hjo]) (by rw [hjo, hap.1])
                rw [hjid, haid, hitemid]
              · rw [← h, ← hpid]
        · rw [if_neg ht] at h
          injection h with h
          exact ⟨fun hx => absurd hx ht, by rw [← h, ← hpid]⟩

/-! ## Reachable states -/

/-- One successful operation of the query/command surface. -/
inductive Step : DB → DB → Prop where
  | criarPersonagem (db : DB) (nome nomeAventureiro : String)
      (classe : ClassePersonagem) (level forcaBase defesaBase : Int) :
      Step db (criar_personagem db nome nomeAventureiro classe level
        forcaBase defesaBase)
  | criarItem (db : DB) (nome : String) (tipo : TipoItem)
      (forca defesa : Int) :
      Step db (criar_item_magico db nome tipo forca defesa)
  | atualizarNome (db db2 : DB) (personagemId : Nat) (nome : String)
      (h : atualizar_nome_aventureiro db personagemId nome = .ok db2) :
      Step db db2
  | removerPersonagem (db db2 : DB) (personagemId : Nat)
      (h : remover_personagem db personagemId = .ok db2) : Step db db2
  | adicionarItem (db db2 : DB) (personagemId itemId : Nat)
      (h : adicionar_item_personagem db personagemId itemId = .ok db2) :
      Step db db2
  | removerItem (db db2 : DB) (personagemId itemId : Nat)
      (h : remover_item_do_personagem db personagemId itemId = .ok db2) :
      Step db db2

/-- States reachable from the empty store by successful operations. -/
inductive Reachable : DB → Prop where
  | empty : Reachable { personagens := [], itens_magicos := [] }
  | step (db db2 : DB) (h1 : Reachable db) (h2 : Step db db2) : Reachable db2

/-- Every operation preserves unique item ids and the amulet invariant. -/
lemma step_preserves_inv (db db2 : DB) (hnd : NodupItemIds db)
    (hau : AmuletUnique db) (h : Step db db2) :
    NodupItemIds db2 ∧ AmuletUnique db2 := by
  cases h with
  | criarPersonagem nome nomeAventureiro classe level forcaBase defesaBase =>
    exact ⟨nodupItemIds_of_itens_eq db _ rfl hnd,
      amuletUnique_of_itens_eq db _ rfl hau⟩
  | criarItem nome tipo forca defesa =>
    exact ⟨nodupItemIds_of_append_fresh db _ _ rfl rfl hnd,
      amuletUnique_append_unowned_of_eq db _ _ rfl rfl hau⟩
  | atualizarNome db2 personagemId nome hop =>
    have h2 := atualizar_ok_itens db personagemId nome db2 hop
    exact ⟨nodupItemIds_of_itens_eq db db2 h2 hnd,
      amuletUnique_of_itens_eq db db2 h2 hau⟩
  | removerPersonagem db2 personagemId hop =>
    have h2 := remover_personagem_ok_itens db personagemId db2 hop
    refine ⟨nodupItemIds_of_map_id_eq db db2 _ (fun i => by split <;> rfl) h2 hnd,
      amuletUnique_clear_of_eq db db2
        (fun i => i.personagem_id = some personagemId) h2 hau⟩
  | adicionarItem db2 personagemId itemId hop =>
    obtain ⟨item, hi, hitemid, hconf, h2⟩ :=
      adicionar_ok_inv db personagemId itemId db2 hau hop
    refine ⟨nodupItemIds_of_map_id_eq db db2 _ (fun i => by split <;> rfl) h2 hnd,
      amuletUnique_attach_of_eq db db2 personagemId itemId item hnd hau
        (List.mem_of_find?_eq_some hi) hitemid hconf h2⟩
  | removerItem db2 personagemId itemId hop =>
    have h2 := remover_item_ok_itens db personagemId itemId db2 hop
    refine ⟨nodupItemIds_of_map_id_eq db db2 _ (fun i => by split <;> rfl) h2 hnd,
      amuletUnique_clear_of_eq db db2
        (fun i => i.id = itemId ∧ i.personagem_id = some personagemId) h2 hau⟩

/-- Unique item ids and the amulet invariant hold in every reachable state. -/
lemma reachable_inv (db : DB) (h : Reachable db) :
    NodupItemIds db ∧ AmuletUnique db := by
  induction h with
  | empty => exact ⟨by decide, by decide⟩
  | step db db2 h1 h2 ih => exact step_preserves_inv db db2 ih.1 ih.2 h2

/-- Two characters, each owning their own amulet. -/
def dbC1 : DB :=
  { personagens := [⟨1, "X", "x", ClassePersonagem.GUERREIRO, 1, 5, 5⟩,
                    ⟨2, "Y", "y", ClassePersonagem.MAGO, 1, 5, 5⟩],
    itens_magicos := [⟨1, "AmuA", TipoItem.AMULETO, 1, 1, some 1⟩,
                      ⟨2, "AmuB", TipoItem.AMULETO, 1, 1, some 2⟩] }

/-- C1 counterexample: character 1 exists and already owns a distinct amulet
(item 1), item 2 is an amulet, yet attaching item 2 to character 1 fails
with the already-owned error, not the amulet-conflict error: the ownership
check precedes the amulet check. -/
theorem c1_counterexample :
    findPersonagem dbC1 1 =
      some ⟨1, "X", "x", ClassePersonagem.GUERREIRO, 1, 5, 5⟩ ∧
    findItem dbC1 2 = some ⟨2, "AmuB", TipoItem.AMULETO, 1, 1, some 2⟩ ∧
    (⟨1, "AmuA", TipoItem.AMULETO, 1, 1, some 1⟩ : ItemMagico) ∈
      dbC1.itens_magicos ∧
    (1 : Nat) ≠ 2 ∧
    adicionar_item_personagem dbC1 1 2 = .error .itemJaAtribuido ∧
    adicionar_item_personagem dbC1 1 2 ≠ .error .amuletoConflito :=
  ⟨rfl, rfl, by decide, by decide, rfl,
    fun h => AppError.noConfusion (Except.error.inj h)⟩

/-- C1 amended: provided the item resolves and is unowned or owned by the
target character (so that the already-owned check passes), attaching an
amulet fails with the amulet-conflict error exactly when the character
already owns a distinct amulet; and every operation (create, rename, attach,
detach, delete) preserves the at-most-one-amulet-per-owner property, which
therefore holds in every reachable state. -/
theorem c1_amulet_uniqueness (db : DB) (hnd : NodupItemIds db)
    (hau : AmuletUnique db) :
    (∀ personagemId itemId p item,
      findPersonagem db personagemId = some p →
      findItem db itemId = some item →
      item.tipo = TipoItem.AMULETO →
      (item.personagem_id = none ∨ item.personagem_id = some personagemId) →
      (adicionar_item_personagem db personagemId itemId =
          .error .amuletoConflito ↔
        ∃ j ∈ db.itens_magicos, j.tipo = TipoItem.AMULETO ∧
          j.personagem_id = some personagemId ∧ j.id ≠ item.id)) ∧
    (∀ db2, Step db db2 → AmuletUnique db2) ∧
    (∀ db2, Reachable db2 → AmuletUnique db2) := by
  refine ⟨?_, fun db2 hstep => (step_preserves_inv db db2 hnd hau hstep).2,
    fun db2 hr => (reachable_inv db2 hr).2⟩
  intro personagemId itemId p item hp hi ht howner
  have hc : ¬(item.personagem_id ≠ none ∧
      item.personagem_id ≠ some personagemId) := by
    rcases howner with h | h <;> simp [h]
  simp only [adicionar_item_personagem, hp, hi]
  rw [if_neg hc, if_pos ht]
  cases hfind : db.itens_magicos.find? (fun i =>
      decide (i.personagem_id = some personagemId ∧
        i.tipo = TipoItem.AMULETO)) with
  | none =>
    simp only [hfind]
    constructor
    · intro h
      exact absurd h (by simp)
    · rintro ⟨j, hj, hjt, hjo, hjne⟩
      exact absurd (by simp [hjo, hjt]) (List.find?_eq_none.mp hfind j hj)
  | some a =>
    simp only [hfind]
    have hamem := List.mem_of_find?_eq_some hfind
    have hap := List.find?_some hfind
    simp only [decide_eq_true_eq] at hap
    by_cases haid : a.id ≠ item.id
    · rw [if_pos haid]
      constructor
      · intro _
        exact ⟨a, hamem, hap.2, hap.1, haid⟩
      · intro _
        rfl
    · rw [if_neg haid]
      push_neg at haid
      constructor
      · intro h
        exact absurd h (by simp)
      · rintro ⟨j, hj, hjt, hjo, hjne⟩
        exfalso
        have hja : j.id = a.id :=
          hau j hj a hamem hjt hap.2 (by simp [hjo]) (by rw [hjo, hap.1])
        exact hjne (hja.trans haid)

/-- C1 witness: the amended statement instantiated on the concrete store. -/
theorem c1_amulet_uniqueness_witness :
    NodupItemIds dbEx ∧ AmuletUnique dbEx ∧
    ((∀ personagemId itemId p item,
      findPersonagem dbEx personagemId = some p →
      findItem dbEx itemId = some item →
      item.tipo = TipoItem.AMULETO →
      (item.personagem_id = none ∨ item.personagem_id = some personagemId) →
      (adicionar_item_personagem dbEx personagemId itemId =
          .error .amuletoConflito ↔
        ∃ j ∈ dbEx.itens_magicos, j.tipo = TipoItem.AMULETO ∧
          j.personagem_id = some personagemId ∧ j.id ≠ item.id)) ∧
    (∀ db2, Step dbEx db2 → AmuletUnique db2) ∧
    (∀ db2, Reachable db2 → AmuletUnique db2)) :=
  ⟨by decide, by decide, c1_amulet_uniqueness dbEx (by decide) (by decide)⟩
